import Mathlib

/-!
Verification of the CSV-to-graph transformation and visibility-filtering
pipeline of `display-graph` (src/App.js), shallowly embedded in Lean 4.

The embedding mirrors the source:
* `colors` — the fixed 8-element palette (App.js line 7);
* `normalizeRow` — the per-row body of the `csvData.forEach` loop in
  `processCSVData` (lines 27–53): field reads via configured headers,
  the `|| 'undefined'` substitution for `experiment`, and the
  missing-field rejection;
* `nodeIdsOf` / `experimentsOf` — the `overallNodeSet` and `experiments`
  JS `Set`s, modelled as lists with first-insertion order (JS `Set`
  iteration order);
* `splitChars` / `joinSep` — JS `String.prototype.split(':')` and
  `Array.prototype.join(':')` on a single-character separator;
* `mkNode` — node materialization (lines 61–70);
* `colorMapGo` — the `Array.from(experiments).forEach((exp, index) => ...)`
  color assignment (lines 55–58);
* `buildEdges` — the edge materialization in `handleVisualize`
  (lines 114–124); the fresh `uuidv4()` edge id is modelled by the
  position of the edge in the list, which captures exactly its
  freshness/uniqueness;
* `filteredGraphData` — the `useMemo` filter (lines 136–157);
* `initialVisibility` — lines 106–110;
* `handleVisualize` — the load orchestration as a state transition on
  the four React state cells, parametrised by the outcome of the
  fetch/parse step (lines 76–134).
-/

namespace DisplayGraph

/-- The fixed 8-element color palette (`colors`, App.js line 7). -/
def colors : List String :=
  ["#FF6B6B", "#4ECDC4", "#45B7D1", "#96CEB4",
   "#FFEEAD", "#FF9999", "#77DD77", "#AEC6CF"]

/-- A raw parsed CSV row: a finite map from header name to string value,
as produced by Papa.parse with `header: true`. Absent headers give `none`
(JS `undefined`). -/
abbrev RawRow := List (String × String)

/-- The five configurable header names (component state, lines 11–15). -/
structure HeaderConfig where
  modelHeader : String
  fromNodeHeader : String
  relationshipHeader : String
  toNodeHeader : String
  experimentHeader : String

/-- The default header configuration (initial component state). -/
def defaultHeaders : HeaderConfig :=
  { modelHeader := "model", fromNodeHeader := "from_node",
    relationshipHeader := "relationship", toNodeHeader := "to_node",
    experimentHeader := "experiment" }

/-- Reads `row[h]` in JS terms: `none` when the key is absent. The only falsy
string is `""`, so `row[h]` being falsy is `readField row h = ""`. -/
def readField (row : RawRow) (h : String) : String :=
  (row.lookup h).getD ""

/-- An accepted row, as pushed onto `allExtractedEdges` (lines 47–52). -/
structure EdgeCandidate where
  source : String
  target : String
  relationship : String
  experiment : String

/-- The body of the `csvData.forEach` row loop (lines 27–53): reads the
five fields through the configured headers, substitutes `"undefined"`
for a falsy `experiment`, drops the row if `model`, `from_node`,
`to_node` or `relationship` is falsy, and otherwise yields the edge
candidate with `sourceId = model + ":" + fromNode` and
`targetId = model + ":" + toNode`. -/
def normalizeRow (hc : HeaderConfig) (row : RawRow) : Option EdgeCandidate :=
  let fromNode := readField row hc.fromNodeHeader
  let toNode := readField row hc.toNodeHeader
  let model := readField row hc.modelHeader
  let experiment :=
    if readField row hc.experimentHeader = "" then "undefined"
    else readField row hc.experimentHeader
  let relationship := readField row hc.relationshipHeader
  if fromNode = "" ∨ toNode = "" ∨ model = "" ∨ relationship = "" then none
  else some { source := model ++ ":" ++ fromNode,
              target := model ++ ":" ++ toNode,
              relationship := relationship,
              experiment := experiment }

/-- JS `Set.prototype.add`: a JS `Set` keeps first-insertion order, so it is
a duplicate-free list extended at the end. -/
def insertNew (l : List String) (x : String) : List String :=
  if x ∈ l then l else l ++ [x]

/-- The `overallNodeSet` contents after the row loop (lines 42–43), as a list in
insertion order. -/
def nodeIdsOf (cands : List EdgeCandidate) : List String :=
  cands.foldl (fun acc c => insertNew (insertNew acc c.source) c.target) []

/-- The `experiments` set after the row loop (line 45), in first-seen order. -/
def experimentsOf (cands : List EdgeCandidate) : List String :=
  cands.foldl (fun acc c => insertNew acc c.experiment) []

/-- JS `String.prototype.split(sep)` for a one-character separator,
on the character list: `"".split(':') = [""]`, and each occurrence of
the separator starts a new chunk. -/
def splitChars (sep : Char) : List Char → List (List Char)
  | [] => [[]]
  | c :: cs =>
    match splitChars sep cs with
    | [] => [[]]
    | r :: rs => if c = sep then [] :: r :: rs else (c :: r) :: rs

/-- JS `Array.prototype.join(sep)` for a one-character separator. -/
def joinSep (sep : Char) : List (List Char) → List Char
  | [] => []
  | [x] => x
  | x :: y :: ys => x ++ sep :: joinSep sep (y :: ys)

/-- A graph node `{id, label, model}` (lines 65–69). -/
structure Node where
  id : String
  label : String
  model : String

/-- Node materialization (lines 61–70): `parts = nodeId.split(':')`,
`model = parts[0]`, `node_name = parts.slice(1).join(':')`. -/
def mkNode (nodeId : String) : Node :=
  let parts := splitChars ':' nodeId.data
  { id := nodeId,
    label := String.mk (joinSep ':' (parts.drop 1)),
    model := String.mk (parts.headD []) }

/-- The `Array.from(experiments).forEach((exp, index) => ...)` color
assignment loop (lines 56–58), with the running index made explicit. -/
def colorMapGo (k : Nat) : List String → List (String × String)
  | [] => []
  | e :: es => (e, colors.getD (k % colors.length) "") :: colorMapGo (k + 1) es

/-- The experiment→color map built at lines 55–58. -/
def colorMapOf (exps : List String) : List (String × String) :=
  colorMapGo 0 exps

/-- The value returned by `processCSVData` (lines 60–73). -/
structure ProcessedData where
  nodes : List Node
  edges : List EdgeCandidate
  experimentColorMap : List (String × String)

/-- The `processCSVData` transformation (lines 22–74). -/
def processCSVData (hc : HeaderConfig) (csvData : List RawRow) : ProcessedData :=
  let cands := csvData.filterMap (normalizeRow hc)
  { nodes := (nodeIdsOf cands).map mkNode,
    edges := cands,
    experimentColorMap := colorMapOf (experimentsOf cands) }

/-- A materialized edge `{id, source, target, label, color, experiment}`
(lines 116–123). The freshly generated `uuidv4()` id is modelled by the
edge's position, which captures its uniqueness. -/
structure Edge where
  id : Nat
  source : String
  target : String
  label : String
  color : String
  experiment : String

/-- Edge materialization, `processedData.edges.map(edge => ({id: ..., source, target, label,
color: colorMap[edge.experiment], experiment}))` (lines 116–123);
`colorMap[...]` missing gives JS `undefined`, modelled by `getD ""`
(never hit for edges the builder produced). -/
def buildEdges (pd : ProcessedData) : List Edge :=
  pd.edges.enum.map (fun p =>
    { id := p.1,
      source := p.2.source,
      target := p.2.target,
      label := p.2.relationship,
      color := (pd.experimentColorMap.lookup p.2.experiment).getD "",
      experiment := p.2.experiment })

/-- The `fullGraphData` state cell (line 17). -/
structure GraphData where
  nodes : List Node
  edges : List Edge

/-- The per-experiment visibility selection (`visibleExperiments`),
a finite map from experiment tag to boolean. -/
abbrev Selection := List (String × Bool)

/-- The `{nodes, links}` value consumed by the renderer. -/
structure FilteredGraph where
  nodes : List Node
  links : List Edge

/-- The `filteredGraphData` memo (lines 136–157): empty when no nodes are
loaded; otherwise keeps the edges whose experiment is mapped exactly to
`true` (`=== true`), collects their endpoint ids, and keeps the nodes
whose id is among them. -/
def filteredGraphData (g : GraphData) (sel : Selection) : FilteredGraph :=
  if g.nodes.length = 0 then { nodes := [], links := [] }
  else
    let visibleEdges := g.edges.filter (fun e => sel.lookup e.experiment = some true)
    let visibleNodeIds :=
      visibleEdges.foldl (fun acc e => insertNew (insertNew acc e.source) e.target) []
    let visibleNodes := g.nodes.filter (fun n => n.id ∈ visibleNodeIds)
    { nodes := visibleNodes, links := visibleEdges }

/-- The `initialVisibility` map (lines 106–109): every key of the color map set
to `true`. -/
def initialVisibility (colorMap : List (String × String)) : Selection :=
  colorMap.map (fun p => (p.1, true))

/-- JS `String.prototype.endsWith`, as a suffix test on the character
sequences. -/
def jsEndsWith (s post : String) : Bool :=
  post.data.isSuffixOf s.data

/-- The four graph-related React state cells (lines 17–20). -/
structure AppState where
  fullGraphData : GraphData
  experimentColors : List (String × String)
  visibleExperiments : Selection
  isLoading : Bool

/-- How the awaited fetch + Papa.parse step of one `handleVisualize` call
resolves: the fetch promise rejects, the parser reports errors, or
parsing completes with the given rows. -/
inductive LoadOutcome where
  | fetchError
  | parseError
  | success (rows : List RawRow)

/-- The `handleVisualize` handler (lines 76–134) as a transition on the state cells:
an invalid URL returns before touching state; otherwise the graph,
selection and color map are cleared up front (lines 82–85), and then the
outcome either leaves the cleared state (parse error, lines 96–101, or
fetch rejection, lines 130–133, both only reset `isLoading`) or installs
the processed graph (lines 103–127). -/
def handleVisualize (hc : HeaderConfig) (url : String) (outcome : LoadOutcome)
    (s : AppState) : AppState :=
  if url = "" ∨ jsEndsWith url ".csv" = false then s
  else
    let cleared : AppState :=
      { s with fullGraphData := { nodes := [], edges := [] },
               visibleExperiments := [],
               experimentColors := [],
               isLoading := true }
    match outcome with
    | .fetchError => { cleared with isLoading := false }
    | .parseError => { cleared with isLoading := false }
    | .success rows =>
      let pd := processCSVData hc rows
      { cleared with
        fullGraphData := { nodes := pd.nodes, edges := buildEdges pd },
        visibleExperiments := initialVisibility pd.experimentColorMap,
        experimentColors := pd.experimentColorMap,
        isLoading := false }

deriving instance DecidableEq for HeaderConfig
deriving instance DecidableEq for EdgeCandidate
deriving instance DecidableEq for Node
deriving instance DecidableEq for Edge
deriving instance DecidableEq for GraphData
deriving instance DecidableEq for ProcessedData
deriving instance DecidableEq for FilteredGraph
deriving instance DecidableEq for AppState

/-- A concrete raw dataset: one well-formed row with experiment `e1`. -/
def sampleRows : List RawRow :=
  [[("model", "m1"), ("from_node", "a"), ("to_node", "b"),
    ("relationship", "r1"), ("experiment", "e1")]]

/-- The edge the pipeline materializes from `sampleRows`. -/
def sampleEdge : Edge :=
  { id := 0, source := "m1:a", target := "m1:b", label := "r1",
    color := "#FF6B6B", experiment := "e1" }

/-- A concrete loaded graph with two nodes and one `e1` edge. -/
def sampleGraph : GraphData :=
  { nodes := [{ id := "m1:a", label := "a", model := "m1" },
              { id := "m1:b", label := "b", model := "m1" }],
    edges := [sampleEdge] }

/-- A concrete app state holding a previously loaded graph. -/
def loadedState : AppState :=
  { fullGraphData := sampleGraph,
    experimentColors := [("e1", "#FF6B6B")],
    visibleExperiments := [("e1", true)],
    isLoading := false }

/-! ### Basic lemmas about the JS `Set` model -/

theorem mem_insertNew {l : List String} {x y : String} :
    y ∈ insertNew l x ↔ y ∈ l ∨ y = x := by
  unfold insertNew
  by_cases h : x ∈ l
  · rw [if_pos h]
    constructor
    · exact Or.inl
    · rintro (hy | rfl)
      · exact hy
      · exact h
  · rw [if_neg h]
    simp

theorem nodup_insertNew {l : List String} {x : String} (h : l.Nodup) :
    (insertNew l x).Nodup := by
  unfold insertNew
  by_cases hx : x ∈ l
  · rwa [if_pos hx]
  · rw [if_neg hx, List.nodup_append]
    exact ⟨h, List.nodup_singleton x,
      fun a ha hax => hx ((List.mem_singleton.mp hax) ▸ ha)⟩

theorem mem_foldl_insertTwo {α : Type} (f g : α → String) (l : List α)
    (acc : List String) (x : String) :
    x ∈ l.foldl (fun a e => insertNew (insertNew a (f e)) (g e)) acc ↔
      x ∈ acc ∨ ∃ e ∈ l, f e = x ∨ g e = x := by
  induction l generalizing acc with
  | nil => simp
  | cons c cs ih =>
    rw [List.foldl_cons, ih]
    constructor
    · rintro (h | ⟨e, he, hx⟩)
      · rcases mem_insertNew.mp h with h1 | rfl
        · rcases mem_insertNew.mp h1 with h2 | rfl
          · exact Or.inl h2
          · exact Or.inr ⟨c, List.mem_cons_self _ _, Or.inl rfl⟩
        · exact Or.inr ⟨c, List.mem_cons_self _ _, Or.inr rfl⟩
      · exact Or.inr ⟨e, List.mem_cons_of_mem _ he, hx⟩
    · rintro (h | ⟨e, he, hx⟩)
      · exact Or.inl (mem_insertNew.mpr (Or.inl (mem_insertNew.mpr (Or.inl h))))
      · rcases List.mem_cons.mp he with rfl | he'
        · rcases hx with h1 | h1
          · exact Or.inl (mem_insertNew.mpr (Or.inl (mem_insertNew.mpr (Or.inr h1.symm))))
          · exact Or.inl (mem_insertNew.mpr (Or.inr h1.symm))
        · exact Or.inr ⟨e, he', hx⟩

theorem mem_foldl_insertOne {α : Type} (f : α → String) (l : List α)
    (acc : List String) (x : String) :
    x ∈ l.foldl (fun a e => insertNew a (f e)) acc ↔
      x ∈ acc ∨ ∃ e ∈ l, f e = x := by
  induction l generalizing acc with
  | nil => simp
  | cons c cs ih =>
    rw [List.foldl_cons, ih]
    constructor
    · rintro (h | ⟨e, he, hx⟩)
      · rcases mem_insertNew.mp h with h1 | rfl
        · exact Or.inl h1
        · exact Or.inr ⟨c, List.mem_cons_self _ _, rfl⟩
      · exact Or.inr ⟨e, List.mem_cons_of_mem _ he, hx⟩
    · rintro (h | ⟨e, he, hx⟩)
      · exact Or.inl (mem_insertNew.mpr (Or.inl h))
      · rcases List.mem_cons.mp he with rfl | he'
        · exact Or.inl (mem_insertNew.mpr (Or.inr hx.symm))
        · exact Or.inr ⟨e, he', hx⟩

theorem nodup_foldl_insertTwo {α : Type} (f g : α → String) (l : List α)
    (acc : List String) (h : acc.Nodup) :
    (l.foldl (fun a e => insertNew (insertNew a (f e)) (g e)) acc).Nodup := by
  induction l generalizing acc with
  | nil => exact h
  | cons c cs ih => exact ih _ (nodup_insertNew (nodup_insertNew h))

theorem nodup_foldl_insertOne {α : Type} (f : α → String) (l : List α)
    (acc : List String) (h : acc.Nodup) :
    (l.foldl (fun a e => insertNew a (f e)) acc).Nodup := by
  induction l generalizing acc with
  | nil => exact h
  | cons c cs ih => exact ih _ (nodup_insertNew h)

/-! ### Lemmas about the color map and the initial selection -/

theorem map_fst_colorMapGo (k : Nat) (exps : List String) :
    (colorMapGo k exps).map Prod.fst = exps := by
  induction exps generalizing k with
  | nil => rfl
  | cons e es ih => simp [colorMapGo, ih]

theorem lookup_colorMapGo (exps : List String) (hnd : exps.Nodup) (k i : Nat)
    (h : i < exps.length) :
    (colorMapGo k exps).lookup (exps.get ⟨i, h⟩) =
      some (colors.getD ((k + i) % colors.length) "") := by
  induction exps generalizing k i with
  | nil => simp at h
  | cons e es ih =>
    rcases List.nodup_cons.mp hnd with ⟨hne, hnd'⟩
    cases i with
    | zero => simp [colorMapGo, List.lookup]
    | succ i =>
      have hi : i < es.length := Nat.lt_of_succ_lt_succ h
      have hget : (e :: es).get ⟨i + 1, h⟩ = es.get ⟨i, hi⟩ := rfl
      have hne' : ((e :: es).get ⟨i + 1, h⟩ == e) = false := by
        rw [hget]
        exact beq_eq_false_iff_ne.mpr fun heq => hne (heq ▸ List.get_mem es i hi)
      rw [colorMapGo, List.lookup, hne', hget,
        show k + (i + 1) = (k + 1) + i from by omega]
      exact ih hnd' (k + 1) i hi

theorem lookup_initialVisibility (cm : List (String × String)) (x : String)
    (h : x ∈ cm.map Prod.fst) :
    (initialVisibility cm).lookup x = some true := by
  induction cm with
  | nil => simp at h
  | cons p ps ih =>
    rcases List.mem_cons.mp h with hx | hx
    · simp only [initialVisibility, List.map_cons, List.lookup]
      rw [show (x == p.1) = true from beq_iff_eq.mpr (by simpa using hx)]
    · by_cases hxp : x = p.1
      · simp only [initialVisibility, List.map_cons, List.lookup]
        rw [show (x == p.1) = true from beq_iff_eq.mpr hxp]
      · simp only [initialVisibility, List.map_cons, List.lookup]
        rw [show (x == p.1) = false from beq_eq_false_iff_ne.mpr hxp]
        exact ih hx

/-! ### Lemmas about `split(':')` and `join(':')` -/

theorem splitChars_cons (sep c : Char) (cs r : List Char) (rs : List (List Char))
    (h : splitChars sep cs = r :: rs) :
    splitChars sep (c :: cs) = if c = sep then [] :: r :: rs else (c :: r) :: rs := by
  rw [splitChars, h]

theorem splitChars_shape (sep : Char) (l : List Char) :
    ∃ r rs, splitChars sep l = r :: rs := by
  induction l with
  | nil => exact ⟨[], [], rfl⟩
  | cons c cs ih =>
    rcases ih with ⟨r, rs, h⟩
    by_cases hc : c = sep
    · exact ⟨[], r :: rs, by rw [splitChars_cons sep c cs r rs h, if_pos hc]⟩
    · exact ⟨c :: r, rs, by rw [splitChars_cons sep c cs r rs h, if_neg hc]⟩

theorem headD_splitChars (sep : Char) (l : List Char) :
    (splitChars sep l).headD [] = l.takeWhile (fun c => c != sep) := by
  induction l with
  | nil => rfl
  | cons c cs ih =>
    rcases splitChars_shape sep cs with ⟨r, rs, h⟩
    rw [h] at ih
    by_cases hc : c = sep
    · subst hc
      rw [splitChars_cons c c cs r rs h, if_pos rfl, List.takeWhile_cons]
      simp
    · rw [splitChars_cons sep c cs r rs h, if_neg hc, List.takeWhile_cons,
        if_pos (bne_iff_ne.mpr hc)]
      exact congrArg (c :: ·) ih

theorem joinSep_single (sep : Char) (x : List Char) : joinSep sep [x] = x := rfl

theorem joinSep_cons2 (sep : Char) (x y : List Char) (ys : List (List Char)) :
    joinSep sep (x :: y :: ys) = x ++ sep :: joinSep sep (y :: ys) := rfl

theorem joinSep_splitChars (sep : Char) (l : List Char) :
    joinSep sep (splitChars sep l) = l := by
  induction l with
  | nil => rfl
  | cons c cs ih =>
    rcases splitChars_shape sep cs with ⟨r, rs, h⟩
    rw [h] at ih
    by_cases hc : c = sep
    · subst hc
      rw [splitChars_cons c c cs r rs h, if_pos rfl, joinSep_cons2,
        List.nil_append, ih]
    · rw [splitChars_cons sep c cs r rs h, if_neg hc]
      cases rs with
      | nil =>
        rw [joinSep_single] at ih
        rw [joinSep_single, ih]
      | cons s ss =>
        rw [joinSep_cons2] at ih
        rw [joinSep_cons2, List.cons_append, ih]

theorem splitChars_two_of_mem (sep : Char) (l : List Char) (h : sep ∈ l) :
    ∃ r s ss, splitChars sep l = r :: s :: ss := by
  induction l with
  | nil => simp at h
  | cons c cs ih =>
    by_cases hc : c = sep
    · rcases splitChars_shape sep cs with ⟨r, rs, hs⟩
      exact ⟨[], r, rs, by rw [splitChars_cons sep c cs r rs hs, if_pos hc]⟩
    · have h' : sep ∈ cs := by
        rcases List.mem_cons.mp h with h0 | h0
        · exact absurd h0.symm hc
        · exact h0
      rcases ih h' with ⟨r, s, ss, h2⟩
      exact ⟨c :: r, s, ss, by rw [splitChars_cons sep c cs r (s :: ss) h2, if_neg hc]⟩

theorem sep_not_mem_headD (sep : Char) (l : List Char) :
    sep ∉ (splitChars sep l).headD [] := by
  rw [headD_splitChars]
  intro hmem
  have := List.mem_takeWhile_imp hmem
  simp at this

/-- What node materialization does to an id containing the separator:
the `model` field is the maximal `':'`-free prefix, the id is rebuilt
exactly as `model ++ ":" ++ label`, and `model` never contains `':'`. -/
theorem mkNode_spec (s : String) (h : ':' ∈ s.data) :
    (mkNode s).model.data = s.data.takeWhile (fun c => c != ':') ∧
    s.data = (mkNode s).model.data ++ ':' :: (mkNode s).label.data ∧
    ':' ∉ (mkNode s).model.data := by
  rcases splitChars_two_of_mem ':' s.data h with ⟨r, t, ts, hsp⟩
  have hmodel : (mkNode s).model.data = (splitChars ':' s.data).headD [] := rfl
  have hlabel : (mkNode s).label.data = joinSep ':' ((splitChars ':' s.data).drop 1) := rfl
  refine ⟨?_, ?_, ?_⟩
  · rw [hmodel, headD_splitChars]
  · rw [hmodel, hlabel, hsp]
    have hj := joinSep_splitChars ':' s.data
    rw [hsp, joinSep_cons2] at hj
    exact hj.symm
  · rw [hmodel]
    exact sep_not_mem_headD ':' s.data

/-! ### Lemmas about the row normalizer -/

theorem normalizeRow_some_shape {hc : HeaderConfig} {row : RawRow} {c : EdgeCandidate}
    (h : normalizeRow hc row = some c) :
    c.source = readField row hc.modelHeader ++ ":" ++ readField row hc.fromNodeHeader ∧
    c.target = readField row hc.modelHeader ++ ":" ++ readField row hc.toNodeHeader := by
  simp only [normalizeRow] at h
  by_cases hcond : readField row hc.fromNodeHeader = "" ∨ readField row hc.toNodeHeader = "" ∨
      readField row hc.modelHeader = "" ∨ readField row hc.relationshipHeader = ""
  · rw [if_pos hcond] at h
    cases h
  · rw [if_neg hcond] at h
    cases h
    exact ⟨rfl, rfl⟩

theorem colon_mem_of_normalizeRow {hc : HeaderConfig} {row : RawRow} {c : EdgeCandidate}
    (h : normalizeRow hc row = some c) :
    ':' ∈ c.source.data ∧ ':' ∈ c.target.data := by
  rcases normalizeRow_some_shape h with ⟨hs, ht⟩
  constructor
  · rw [hs, String.data_append, String.data_append]
    simp [String.data]
  · rw [ht, String.data_append, String.data_append]
    simp [String.data]

/-! ### Lemmas about edge materialization -/

theorem buildEdges_mem_spec {pd : ProcessedData} {e : Edge} (h : e ∈ buildEdges pd) :
    ∃ c ∈ pd.edges, e.source = c.source ∧ e.target = c.target ∧
      e.label = c.relationship ∧ e.experiment = c.experiment ∧
      e.color = (pd.experimentColorMap.lookup c.experiment).getD "" := by
  unfold buildEdges at h
  rcases List.mem_map.mp h with ⟨⟨i, c⟩, hp, rfl⟩
  rw [List.enum_eq_zip_range] at hp
  exact ⟨c, (List.of_mem_zip hp).2, rfl, rfl, rfl, rfl, rfl⟩

theorem exists_buildEdge {pd : ProcessedData} {c : EdgeCandidate} (h : c ∈ pd.edges) :
    ∃ e ∈ buildEdges pd, e.source = c.source ∧ e.target = c.target ∧
      e.experiment = c.experiment := by
  rcases List.mem_iff_get.mp h with ⟨⟨i, hi⟩, hget⟩
  have henum : (i, c) ∈ pd.edges.enum := by
    rw [List.mk_mem_enum_iff_getElem?]
    rw [List.getElem?_eq_getElem hi]
    exact congrArg some hget
  exact ⟨_, List.mem_map.mpr ⟨(i, c), henum, rfl⟩, rfl, rfl, rfl⟩

/-! ### Characterization of the visibility filter -/

theorem filteredGraphData_of_empty (g : GraphData) (sel : Selection)
    (h : g.nodes.length = 0) :
    filteredGraphData g sel = { nodes := [], links := [] } := by
  unfold filteredGraphData
  rw [if_pos h]

theorem filteredGraphData_of_nonempty (g : GraphData) (sel : Selection)
    (h : ¬ g.nodes.length = 0) :
    filteredGraphData g sel =
      { nodes := g.nodes.filter (fun n =>
          n.id ∈ (g.edges.filter (fun e => sel.lookup e.experiment = some true)).foldl
            (fun acc e => insertNew (insertNew acc e.source) e.target) []),
        links := g.edges.filter (fun e => sel.lookup e.experiment = some true) } := by
  unfold filteredGraphData
  rw [if_neg h]

theorem mem_filteredLinks {g : GraphData} {sel : Selection} {e : Edge} :
    e ∈ (filteredGraphData g sel).links ↔
      g.nodes ≠ [] ∧ e ∈ g.edges ∧ sel.lookup e.experiment = some true := by
  by_cases h : g.nodes.length = 0
  · rw [filteredGraphData_of_empty g sel h]
    simp [List.length_eq_zero.mp h]
  · rw [filteredGraphData_of_nonempty g sel h]
    have hne : g.nodes ≠ [] := fun he => h (by simp [he])
    simp [List.mem_filter, hne]

theorem mem_filteredNodes {g : GraphData} {sel : Selection} {n : Node} :
    n ∈ (filteredGraphData g sel).nodes ↔
      g.nodes ≠ [] ∧ n ∈ g.nodes ∧
        ∃ e ∈ g.edges, sel.lookup e.experiment = some true ∧
          (e.source = n.id ∨ e.target = n.id) := by
  by_cases h : g.nodes.length = 0
  · rw [filteredGraphData_of_empty g sel h]
    simp [List.length_eq_zero.mp h]
  · rw [filteredGraphData_of_nonempty g sel h]
    have hne : g.nodes ≠ [] := fun he => h (by simp [he])
    simp only [List.mem_filter, decide_eq_true_eq, hne, ne_eq, not_false_iff, true_and]
    rw [mem_foldl_insertTwo]
    simp only [List.not_mem_nil, false_or, List.mem_filter, decide_eq_true_eq]
    constructor
    · rintro ⟨hn, e, ⟨he, hsel⟩, hend⟩
      exact ⟨hn, e, he, hsel, hend⟩
    · rintro ⟨hn, e, he, hsel, hend⟩
      exact ⟨hn, e, ⟨he, hsel⟩, hend⟩

/-! ### Lemmas about the assembled pipeline -/

theorem processCSVData_edges (hc : HeaderConfig) (rows : List RawRow) :
    (processCSVData hc rows).edges = rows.filterMap (normalizeRow hc) := rfl

theorem processCSVData_nodes_eq (hc : HeaderConfig) (rows : List RawRow) :
    (processCSVData hc rows).nodes =
      (nodeIdsOf ((processCSVData hc rows).edges)).map mkNode := rfl

theorem mem_nodeIdsOf {cands : List EdgeCandidate} {x : String} :
    x ∈ nodeIdsOf cands ↔ ∃ c ∈ cands, c.source = x ∨ c.target = x := by
  unfold nodeIdsOf
  rw [mem_foldl_insertTwo]
  simp

theorem mem_experimentsOf {cands : List EdgeCandidate} {x : String} :
    x ∈ experimentsOf cands ↔ ∃ c ∈ cands, c.experiment = x := by
  unfold experimentsOf
  rw [mem_foldl_insertOne]
  simp

theorem map_id_of_map_mkNode (l : List String) :
    (l.map mkNode).map Node.id = l := by
  rw [List.map_map, show (Node.id ∘ mkNode) = id from funext fun s => rfl, List.map_id]

theorem buildEdges_map_id (pd : ProcessedData) :
    (buildEdges pd).map Edge.id = List.range pd.edges.length := by
  unfold buildEdges
  rw [List.map_map]
  exact List.enum_map_fst _

theorem filteredGraphData_mk (nodes : List Node) (edges : List Edge) (sel : Selection) :
    filteredGraphData { nodes := nodes, edges := edges } sel =
      if nodes.length = 0 then { nodes := [], links := [] }
      else { nodes := nodes.filter (fun n =>
               n.id ∈ (edges.filter (fun e => sel.lookup e.experiment = some true)).foldl
                 (fun acc e => insertNew (insertNew acc e.source) e.target) []),
             links := edges.filter (fun e => sel.lookup e.experiment = some true) } := rfl

/-- Filtering a graph with the all-keys-true selection derived from a
color map covering every edge's experiment is the identity, provided
every node is incident to an edge. -/
theorem initial_filter_id (nodes : List Node) (edges : List Edge)
    (cm : List (String × String))
    (hconn : ∀ n ∈ nodes, ∃ e ∈ edges, e.source = n.id ∨ e.target = n.id)
    (hkeys : ∀ e ∈ edges, e.experiment ∈ cm.map Prod.fst)
    (hwf : nodes = [] → edges = []) :
    filteredGraphData { nodes := nodes, edges := edges } (initialVisibility cm) =
      { nodes := nodes, links := edges } := by
  rw [filteredGraphData_mk]
  by_cases h : nodes.length = 0
  · rw [if_pos h]
    have h0 : nodes = [] := List.length_eq_zero.mp h
    rw [h0, hwf h0]
  · rw [if_neg h]
    have hedges : edges.filter
        (fun e => (initialVisibility cm).lookup e.experiment = some true) = edges := by
      rw [List.filter_eq_self]
      intro e he
      have hl := lookup_initialVisibility cm e.experiment (hkeys e he)
      simp [hl]
    rw [hedges]
    have hnodes : nodes.filter (fun n =>
        n.id ∈ edges.foldl (fun acc e => insertNew (insertNew acc e.source) e.target) [])
        = nodes := by
      rw [List.filter_eq_self]
      intro n hn
      rcases hconn n hn with ⟨e, he, hend⟩
      have hm : n.id ∈ edges.foldl
          (fun acc e => insertNew (insertNew acc e.source) e.target) [] :=
        (mem_foldl_insertTwo _ _ _ _ _).mpr (Or.inr ⟨e, he, hend⟩)
      simp [hm]
    rw [hnodes]

/-! ### Claim theorems -/

/-- Claim C1, counterexample: the claim that a load-level failure leaves the
previously loaded full graph, color map and visibility selection untouched
is false: starting from a loaded state, a parse failure during a new load
leaves none of the three equal to its prior value, because
`handleVisualize` clears all three before fetching. -/
theorem loadError_drops_prior_state_cex :
    ¬ ((handleVisualize defaultHeaders "data.csv" LoadOutcome.parseError
          loadedState).fullGraphData = loadedState.fullGraphData ∧
       (handleVisualize defaultHeaders "data.csv" LoadOutcome.parseError
          loadedState).experimentColors = loadedState.experimentColors ∧
       (handleVisualize defaultHeaders "data.csv" LoadOutcome.parseError
          loadedState).visibleExperiments = loadedState.visibleExperiments) := by
  decide

/-- Claim C1, amended: for every load that fails at the load level (parse
failure or fetch failure) on a valid URL, the state visible after the
failure is the cleared state — empty graph, empty color map, empty
selection, loading flag off — regardless of any previously loaded graph:
the load clears prior state at initiation, so nothing partial from the
failing load is shown, but the prior graph is not preserved. -/
theorem loadError_clears_state (hc : HeaderConfig) (url : String) (s : AppState)
    (outcome : LoadOutcome)
    (hurl : ¬ (url = "" ∨ jsEndsWith url ".csv" = false))
    (hout : outcome = LoadOutcome.parseError ∨ outcome = LoadOutcome.fetchError) :
    handleVisualize hc url outcome s =
      { fullGraphData := { nodes := [], edges := [] },
        experimentColors := [], visibleExperiments := [], isLoading := false } := by
  unfold handleVisualize
  rw [if_neg hurl]
  rcases hout with rfl | rfl <;> rfl

theorem loadError_clears_state_witness :
    handleVisualize defaultHeaders "data.csv" LoadOutcome.fetchError loadedState =
      { fullGraphData := { nodes := [], edges := [] },
        experimentColors := [], visibleExperiments := [], isLoading := false } :=
  loadError_clears_state defaultHeaders "data.csv" loadedState LoadOutcome.fetchError
    (by decide) (Or.inr rfl)

/-- Claim C2: every edge the pipeline builds has both its source id and its
target id present as node ids of the same built graph. -/
theorem edge_endpoints_exist (hc : HeaderConfig) (rows : List RawRow) (e : Edge)
    (he : e ∈ buildEdges (processCSVData hc rows)) :
    (∃ n ∈ (processCSVData hc rows).nodes, n.id = e.source) ∧
    (∃ n ∈ (processCSVData hc rows).nodes, n.id = e.target) := by
  rcases buildEdges_mem_spec he with ⟨c, hcmem, hs, ht, -, -, -⟩
  rw [processCSVData_nodes_eq]
  constructor
  · exact ⟨mkNode e.source,
      List.mem_map.mpr ⟨e.source, mem_nodeIdsOf.mpr ⟨c, hcmem, Or.inl hs.symm⟩, rfl⟩, rfl⟩
  · exact ⟨mkNode e.target,
      List.mem_map.mpr ⟨e.target, mem_nodeIdsOf.mpr ⟨c, hcmem, Or.inr ht.symm⟩, rfl⟩, rfl⟩

theorem edge_endpoints_exist_witness :
    (∃ n ∈ (processCSVData defaultHeaders sampleRows).nodes, n.id = sampleEdge.source) ∧
    (∃ n ∈ (processCSVData defaultHeaders sampleRows).nodes, n.id = sampleEdge.target) :=
  edge_endpoints_exist defaultHeaders sampleRows sampleEdge (by decide)

/-- Claim C3: a raw row missing any of model, from-node, to-node or
relationship (absent or empty under the configured headers) is dropped
entirely — it contributes no node and no edge; otherwise it yields
exactly one edge candidate with source `model ++ ":" ++ from_node`,
target `model ++ ":" ++ to_node`, the relationship as label, and the
row's experiment value with the literal `"undefined"` substituted when
that value is empty or missing. -/
theorem row_normalizer_cases (hc : HeaderConfig) (row : RawRow) :
    ((readField row hc.modelHeader = "" ∨ readField row hc.fromNodeHeader = "" ∨
      readField row hc.toNodeHeader = "" ∨ readField row hc.relationshipHeader = "") →
      normalizeRow hc row = none ∧
      processCSVData hc [row] = { nodes := [], edges := [], experimentColorMap := [] }) ∧
    ((readField row hc.modelHeader ≠ "" ∧ readField row hc.fromNodeHeader ≠ "" ∧
      readField row hc.toNodeHeader ≠ "" ∧ readField row hc.relationshipHeader ≠ "") →
      (processCSVData hc [row]).edges =
        [{ source := readField row hc.modelHeader ++ ":" ++ readField row hc.fromNodeHeader,
           target := readField row hc.modelHeader ++ ":" ++ readField row hc.toNodeHeader,
           relationship := readField row hc.relationshipHeader,
           experiment := if readField row hc.experimentHeader = "" then "undefined"
                         else readField row hc.experimentHeader }]) := by
  constructor
  · intro h
    have hcond : readField row hc.fromNodeHeader = "" ∨ readField row hc.toNodeHeader = "" ∨
        readField row hc.modelHeader = "" ∨ readField row hc.relationshipHeader = "" := by
      tauto
    have h1 : normalizeRow hc row = none := by
      simp only [normalizeRow]
      rw [if_pos hcond]
    have hcands : ([row] : List RawRow).filterMap (normalizeRow hc) = [] := by
      simp [List.filterMap_cons, h1]
    refine ⟨h1, ?_⟩
    unfold processCSVData
    rw [hcands]
    rfl
  · rintro ⟨hm, hf, ht, hr⟩
    have hcond : ¬ (readField row hc.fromNodeHeader = "" ∨ readField row hc.toNodeHeader = "" ∨
        readField row hc.modelHeader = "" ∨ readField row hc.relationshipHeader = "") := by
      tauto
    have h1 : normalizeRow hc row = some
        { source := readField row hc.modelHeader ++ ":" ++ readField row hc.fromNodeHeader,
          target := readField row hc.modelHeader ++ ":" ++ readField row hc.toNodeHeader,
          relationship := readField row hc.relationshipHeader,
          experiment := if readField row hc.experimentHeader = "" then "undefined"
                        else readField row hc.experimentHeader } := by
      simp only [normalizeRow]
      rw [if_neg hcond]
    rw [processCSVData_edges]
    simp [List.filterMap_cons, h1]

theorem row_normalizer_cases_witness :
    (processCSVData defaultHeaders
        [[("model", "m1"), ("from_node", "a"), ("to_node", "b"), ("relationship", "r1")]]).edges =
      [{ source := "m1:a", target := "m1:b", relationship := "r1",
         experiment := "undefined" }] := by
  have h := (row_normalizer_cases defaultHeaders
      [("model", "m1"), ("from_node", "a"), ("to_node", "b"), ("relationship", "r1")]).2
      ⟨by decide, by decide, by decide, by decide⟩
  rw [h]
  decide

/-- Claim C4: the visibility filter keeps an edge exactly when the selection
maps its experiment tag to `true`; an absent or `false` entry excludes
the edge (explicit opt-in). Holds for every graph in which edges cannot
outlive an empty node set — true of every graph the builder produces. -/
theorem filter_edge_strict_optin (g : GraphData) (sel : Selection)
    (hwf : g.nodes = [] → g.edges = []) (e : Edge) :
    e ∈ (filteredGraphData g sel).links ↔
      e ∈ g.edges ∧ sel.lookup e.experiment = some true := by
  rw [mem_filteredLinks]
  by_cases h : g.nodes = []
  · have h0 := hwf h
    simp [h, h0]
  · simp [h]

theorem filter_edge_strict_optin_witness :
    sampleEdge ∈ (filteredGraphData sampleGraph [("e1", true)]).links ↔
      sampleEdge ∈ sampleGraph.edges ∧
        (([("e1", true)] : Selection).lookup sampleEdge.experiment = some true) :=
  filter_edge_strict_optin sampleGraph [("e1", true)] (by decide) sampleEdge

/-- Claim C5: the filtered view's node set is exactly the nodes of the full
graph incident (as source or target) to at least one filtered-in edge;
a node with no visible incident edge never appears. -/
theorem filtered_nodes_exactly_incident (g : GraphData) (sel : Selection) (n : Node) :
    n ∈ (filteredGraphData g sel).nodes ↔
      n ∈ g.nodes ∧ ∃ e ∈ (filteredGraphData g sel).links,
        e.source = n.id ∨ e.target = n.id := by
  rw [mem_filteredNodes]
  constructor
  · rintro ⟨hne, hn, e, he, hsel, hend⟩
    exact ⟨hn, e, mem_filteredLinks.mpr ⟨hne, he, hsel⟩, hend⟩
  · rintro ⟨hn, e, he, hend⟩
    rcases mem_filteredLinks.mp he with ⟨hne, he', hsel⟩
    exact ⟨hne, hn, e, he', hsel, hend⟩

/-- Claim C6: the i-th distinct experiment tag in first-seen order of row
processing receives `colors[i % colors.length]`, and within one load all
edges carrying the same experiment tag receive the same color. -/
theorem experiment_color_assignment (hc : HeaderConfig) (rows : List RawRow) :
    (∀ i (h : i < (experimentsOf ((processCSVData hc rows).edges)).length),
        (processCSVData hc rows).experimentColorMap.lookup
            ((experimentsOf ((processCSVData hc rows).edges)).get ⟨i, h⟩) =
          some (colors.getD (i % colors.length) "")) ∧
    (∀ e₁ ∈ buildEdges (processCSVData hc rows),
     ∀ e₂ ∈ buildEdges (processCSVData hc rows),
        e₁.experiment = e₂.experiment → e₁.color = e₂.color) := by
  constructor
  · intro i h
    have hnd : (experimentsOf ((processCSVData hc rows).edges)).Nodup :=
      nodup_foldl_insertOne _ _ _ List.nodup_nil
    have hl := lookup_colorMapGo _ hnd 0 i h
    rw [Nat.zero_add] at hl
    exact hl
  · intro e₁ h₁ e₂ h₂ hexp
    rcases buildEdges_mem_spec h₁ with ⟨c₁, -, -, -, -, hexp₁, hcol₁⟩
    rcases buildEdges_mem_spec h₂ with ⟨c₂, -, -, -, -, hexp₂, hcol₂⟩
    rw [hcol₁, hcol₂, ← hexp₁, ← hexp₂, hexp]

theorem experiment_color_assignment_witness :
    (processCSVData defaultHeaders sampleRows).experimentColorMap.lookup "e1" =
      some "#FF6B6B" := by
  have h := (experiment_color_assignment defaultHeaders sampleRows).1 0 (by decide)
  exact h.trans (by decide)

/-- Claim C7: enlarging the set of experiment keys mapped to `true` can only
enlarge the filtered view: every link and node visible under the smaller
selection stays visible under the larger one. -/
theorem visibility_filter_monotone (g : GraphData) (s₁ s₂ : Selection)
    (hsub : ∀ k, s₂.lookup k = some true → s₁.lookup k = some true) :
    (∀ e ∈ (filteredGraphData g s₂).links, e ∈ (filteredGraphData g s₁).links) ∧
    (∀ n ∈ (filteredGraphData g s₂).nodes, n ∈ (filteredGraphData g s₁).nodes) := by
  constructor
  · intro e he
    rcases mem_filteredLinks.mp he with ⟨hne, he', hsel⟩
    exact mem_filteredLinks.mpr ⟨hne, he', hsub _ hsel⟩
  · intro n hn
    rcases mem_filteredNodes.mp hn with ⟨hne, hn', e, he, hsel, hend⟩
    exact mem_filteredNodes.mpr ⟨hne, hn', e, he, hsub _ hsel, hend⟩

theorem visibility_filter_monotone_witness :
    (∀ e ∈ (filteredGraphData sampleGraph [("e1", true)]).links,
        e ∈ (filteredGraphData sampleGraph [("e1", true), ("e2", true)]).links) ∧
    (∀ n ∈ (filteredGraphData sampleGraph [("e1", true)]).nodes,
        n ∈ (filteredGraphData sampleGraph [("e1", true), ("e2", true)]).nodes) :=
  visibility_filter_monotone sampleGraph [("e1", true), ("e2", true)] [("e1", true)]
    (by
      intro k hk
      by_cases h : k = "e1"
      · subst h
        decide
      · have hb : (k == "e1") = false := beq_eq_false_iff_ne.mpr h
        simp [List.lookup, hb] at hk)

/-- Claim C8: the built node set has no duplicate ids (rows naming the same
(model, node-name) pair share one node), while every accepted row becomes
its own edge: there are as many edges as accepted rows, and their
generated ids are pairwise distinct (multi-edges are never merged). -/
theorem nodes_nodup_edges_not_merged (hc : HeaderConfig) (rows : List RawRow) :
    ((processCSVData hc rows).nodes.map Node.id).Nodup ∧
    (buildEdges (processCSVData hc rows)).length =
      (rows.filterMap (normalizeRow hc)).length ∧
    ((buildEdges (processCSVData hc rows)).map Edge.id).Nodup := by
  refine ⟨?_, ?_, ?_⟩
  · rw [processCSVData_nodes_eq, map_id_of_map_mkNode]
    exact nodup_foldl_insertTwo _ _ _ _ List.nodup_nil
  · simp [buildEdges, List.enum_length, processCSVData_edges]
  · rw [buildEdges_map_id]
    exact List.nodup_range _

/-- Claim C9: every materialized node's model field is the portion of its id
strictly before the first `':'` (hence never contains `':'`), its label
is the entire remainder after the first `':'`, and
`model ++ ":" ++ label` reconstructs the id exactly. -/
theorem node_model_label_split (hc : HeaderConfig) (rows : List RawRow) (n : Node)
    (hn : n ∈ (processCSVData hc rows).nodes) :
    n.model.data = n.id.data.takeWhile (fun c => c != ':') ∧
    n.id.data = n.model.data ++ ':' :: n.label.data ∧
    ':' ∉ n.model.data := by
  rw [processCSVData_nodes_eq] at hn
  rcases List.mem_map.mp hn with ⟨s, hs, rfl⟩
  have hcol : ':' ∈ s.data := by
    rcases mem_nodeIdsOf.mp hs with ⟨c, hc', hend⟩
    rw [processCSVData_edges] at hc'
    rcases List.mem_filterMap.mp hc' with ⟨row, -, hrow⟩
    rcases colon_mem_of_normalizeRow hrow with ⟨h1, h2⟩
    rcases hend with rfl | rfl
    · exact h1
    · exact h2
  exact mkNode_spec s hcol

theorem node_model_label_split_witness :
    (mkNode "m1:a").model.data = ("m1:a" : String).data.takeWhile (fun c => c != ':') ∧
    ("m1:a" : String).data = (mkNode "m1:a").model.data ++ ':' :: (mkNode "m1:a").label.data ∧
    ':' ∉ (mkNode "m1:a").model.data :=
  node_model_label_split defaultHeaders sampleRows (mkNode "m1:a") (by decide)

/-- Claim C10: the builder never produces isolated nodes — every node id is
an endpoint of some built edge — and therefore filtering a freshly loaded
graph with its initial all-true selection returns the full node set and
the full edge set unchanged. -/
theorem no_isolated_nodes_initial_filter_full (hc : HeaderConfig) (rows : List RawRow) :
    (∀ n ∈ (processCSVData hc rows).nodes,
        ∃ e ∈ buildEdges (processCSVData hc rows), e.source = n.id ∨ e.target = n.id) ∧
    filteredGraphData
        { nodes := (processCSVData hc rows).nodes,
          edges := buildEdges (processCSVData hc rows) }
        (initialVisibility (processCSVData hc rows).experimentColorMap) =
      { nodes := (processCSVData hc rows).nodes,
        links := buildEdges (processCSVData hc rows) } := by
  have hinc : ∀ n ∈ (processCSVData hc rows).nodes,
      ∃ e ∈ buildEdges (processCSVData hc rows), e.source = n.id ∨ e.target = n.id := by
    intro n hn
    rw [processCSVData_nodes_eq] at hn
    rcases List.mem_map.mp hn with ⟨s, hs, rfl⟩
    rcases mem_nodeIdsOf.mp hs with ⟨c, hc', hend⟩
    rcases exists_buildEdge hc' with ⟨e, he, hes, het, -⟩
    rcases hend with hend | hend
    · exact ⟨e, he, Or.inl ((hes.trans hend).trans rfl)⟩
    · exact ⟨e, he, Or.inr ((het.trans hend).trans rfl)⟩
  refine ⟨hinc, ?_⟩
  apply initial_filter_id
  · exact hinc
  · intro e he
    rcases buildEdges_mem_spec he with ⟨c, hc', -, -, -, hexp, -⟩
    show e.experiment ∈
      (colorMapGo 0 (experimentsOf ((processCSVData hc rows).edges))).map Prod.fst
    rw [map_fst_colorMapGo]
    exact mem_experimentsOf.mpr ⟨c, hc', hexp.symm⟩
  · intro h0
    have hcands : (processCSVData hc rows).edges = [] := by
      rw [processCSVData_nodes_eq] at h0
      have hids : nodeIdsOf ((processCSVData hc rows).edges) = [] :=
        List.map_eq_nil_iff.mp h0
      rw [List.eq_nil_iff_forall_not_mem]
      intro c hc'
      have hmem : c.source ∈ nodeIdsOf ((processCSVData hc rows).edges) :=
        mem_nodeIdsOf.mpr ⟨c, hc', Or.inl rfl⟩
      rw [hids] at hmem
      exact List.not_mem_nil _ hmem
    unfold buildEdges
    rw [hcands]
    rfl

end DisplayGraph
